import Mathlib

set_option linter.unusedVariables false

/-!
Shallow embedding of the web-audio-tutorial repository's audio engines.

The repository's claim-relevant code lives in
`src/01-basic-sound-manager/SoundManager.js` (class `SoundManager`),
`src/02-breakout-game/audio-breakout.js` (class `BreakoutAudioEngine`) and
`src/EXAMPLES.md` (class `AudioPool`).

Modelling conventions:
* Times, frequencies and gain values are rationals (`ℚ`): the JS numbers are
  used here only through `+`, `*`, comparison and exact constants
  (`0.01 = 1/100`, `0.3 = 3/10`, ...), so exact rational arithmetic is the
  faithful shallow model.
* The Web Audio platform is an oracle (`Platform`): whether
  `new AudioContext()` throws, whether `createOscillator`/`createGain`
  throw, and whether a newly created context starts in the `suspended`
  state (autoplay policy).
* Each scheduling call the code makes on the platform
  (`frequency.setValueAtTime`, `gain.setValueAtTime`,
  `gain.exponentialRampToValueAtTime`, `oscillator.start`,
  `oscillator.stop`) is recorded as an `Event`; a `playTone` call returns
  the updated engine state together with the list of events it scheduled,
  in source order.
* A context is identified by a `Nat` id; engine states carry a counter of
  contexts ever created (fresh-id source) and the list of contexts created
  and not yet closed, so that the singleton-context invariant is a real
  statement rather than a consequence of the state type.
* A JS exception is `Except.error` (carrying, where it matters, the
  instance state at the moment of the throw); a method whose body is
  entirely guarded by `try/catch` is a total function, while an exception
  thrown outside a `try` block escapes to the caller.
-/

/-- Waveform kinds accepted by the oscillators (`'sine'`, `'square'`,
`'sawtooth'`, `'triangle'`). -/
inductive Waveform
  | sine
  | square
  | sawtooth
  | triangle
deriving DecidableEq, Repr

/-- Platform oracle: which platform operations fail on this run, and whether
a freshly created `AudioContext` starts suspended (autoplay policy). -/
structure Platform where
  contextFails : Bool
  nodeAllocFails : Bool
  newCtxSuspended : Bool
deriving DecidableEq, Repr

/-- A platform oracle on which every operation succeeds. -/
def Platform.ok : Platform := ⟨false, false, false⟩

/-- One scheduling call made on the platform audio API, with its clock
argument (seconds on the rendering context's clock). -/
inductive Event
  | setFreq (f : ℚ) (t : ℚ)
  | setGain (v : ℚ) (t : ℚ)
  | expRamp (v : ℚ) (t : ℚ)
  | oscStart (t : ℚ)
  | oscStop (t : ℚ)
deriving DecidableEq, Repr

/-- The `oscillator.start` times occurring in an event list. -/
def startTimes (evs : List Event) : List ℚ :=
  evs.filterMap fun e =>
    match e with
    | .oscStart t => some t
    | _ => none

/-- The `oscillator.stop` times occurring in an event list. -/
def stopTimes (evs : List Event) : List ℚ :=
  evs.filterMap fun e =>
    match e with
    | .oscStop t => some t
    | _ => none

/-- A scheduled gain envelope: value `v0` set at time `t0`
(`gain.setValueAtTime(v0, t0)`) followed by an exponential ramp to `v1`
at time `t1` (`gain.exponentialRampToValueAtTime(v1, t1)`). -/
structure GainEnvelope where
  v0 : ℚ
  v1 : ℚ
  t0 : ℚ
  t1 : ℚ
deriving DecidableEq, Repr

/-- The gain envelope scheduled by an event list, when it consists of
exactly one `setValueAtTime` and one `exponentialRampToValueAtTime`. -/
def scheduledEnvelope (evs : List Event) : Option GainEnvelope :=
  match evs.filterMap (fun e => match e with | .setGain v t => some (v, t) | _ => none),
        evs.filterMap (fun e => match e with | .expRamp v t => some (v, t) | _ => none) with
  | [(v0, t0)], [(v1, t1)] => some ⟨v0, v1, t0, t1⟩
  | _, _ => none

/-- The value at real time `t` of the exponential gain ramp described by a
`GainEnvelope`, per the Web Audio specification of
`exponentialRampToValueAtTime`:
`v(t) = v0 * (v1 / v0) ^ ((t - t0) / (t1 - t0))` (real exponentiation). -/
noncomputable def GainEnvelope.value (g : GainEnvelope) (t : ℝ) : ℝ :=
  (g.v0 : ℝ) * ((g.v1 : ℝ) / (g.v0 : ℝ)) ^ ((t - (g.t0 : ℝ)) / ((g.t1 : ℝ) - (g.t0 : ℝ)))

namespace SoundManager

/-- State of a `SoundManager` instance (`src/01-basic-sound-manager/SoundManager.js`).
`audioContext` and `enabled` are the two instance fields of the class;
`createdContexts` counts contexts ever created by this instance (it is the
fresh-id source), and `openContexts` lists contexts created and not yet
closed, bookkeeping for the singleton-context invariant. -/
structure State where
  audioContext : Option Nat
  enabled : Bool
  createdContexts : Nat
  openContexts : List Nat
deriving DecidableEq, Repr

/-- `new SoundManager()`: `this.audioContext = null; this.enabled = true`. -/
def State.initial : State := ⟨none, true, 0, []⟩

/-- `getContext()`: lazily create the `AudioContext`.  `new AudioContext()`
throws exactly when the platform oracle says context creation fails. -/
def getContext (p : Platform) (s : State) : Except Unit (Nat × State) :=
  match s.audioContext with
  | some c => .ok (c, s)
  | none =>
    if p.contextFails then .error ()
    else
      .ok (s.createdContexts,
        { s with
          audioContext := some s.createdContexts
          createdContexts := s.createdContexts + 1
          openContexts := s.createdContexts :: s.openContexts })

/-- `setEnabled(enabled)`: `this.enabled = enabled`. -/
def setEnabled (enabled : Bool) (s : State) : State :=
  { s with enabled := enabled }

/-- The try-block body of `playTone`: get (or create) the context, allocate
the oscillator and gain node, then schedule
frequency set, gain set to `volume`, exponential ramp to `0.01` at
`currentTime + duration`, oscillator start at `currentTime` and stop at
`currentTime + duration`.  `now` is `ctx.currentTime` at the call.
A thrown exception (`Except.error`) carries the instance state at the
moment of the throw: a context created and assigned by `getContext()`
before `createOscillator()` throws stays created. -/
def playToneBody (p : Platform) (now : ℚ) (frequency duration : ℚ)
    («type» : Waveform) (volume : ℚ) (s : State) :
    Except State (State × List Event) :=
  match getContext p s with
  | .error _ => .error s
  | .ok (_ctx, s1) =>
    if p.nodeAllocFails then .error s1
    else
      .ok (s1,
        [ .setFreq frequency now,
          .setGain volume now,
          .expRamp (1/100) (now + duration),
          .oscStart now,
          .oscStop (now + duration) ])

/-- `playTone(frequency, duration, type = 'sine', volume = 0.3)`:
no-op when disabled; otherwise the whole body runs inside `try/catch`, the
catch logging and swallowing any failure, so the method always returns
normally.  The returned list is the events the call scheduled. -/
def playTone (p : Platform) (now : ℚ) (frequency duration : ℚ)
    («type» : Waveform) (volume : ℚ) (s : State) : State × List Event :=
  if !s.enabled then (s, [])
  else
    match playToneBody p now frequency duration «type» volume s with
    | .ok r => r
    | .error s1 => (s1, [])

/-- `dispose()`: `if (this.audioContext) { this.audioContext.close(); this.audioContext = null }`.
Closing removes the context from the open list. -/
def dispose (s : State) : State :=
  match s.audioContext with
  | some c =>
    { s with audioContext := none, openContexts := s.openContexts.erase c }
  | none => s

end SoundManager

namespace BreakoutAudioEngine

/-- Run state of an `AudioContext` (`context.state`). -/
inductive CtxState
  | running
  | suspended
deriving DecidableEq, Repr

/-- A context handle: its id together with its current run state. -/
structure Ctx where
  id : Nat
  state : CtxState
deriving DecidableEq, Repr

/-- State of a `BreakoutAudioEngine` instance
(`src/02-breakout-game/audio-breakout.js`).  `context`, `enabled` and
`masterVolume` are the instance fields; `createdContexts` and
`openContexts` are the same bookkeeping as for `SoundManager.State`. -/
structure State where
  context : Option Ctx
  enabled : Bool
  masterVolume : ℚ
  createdContexts : Nat
  openContexts : List Nat
deriving DecidableEq, Repr

/-- `new BreakoutAudioEngine()`:
`this.context = null; this.enabled = true; this.masterVolume = 0.7`. -/
def State.initial : State := ⟨none, true, 7/10, 0, []⟩

/-- `init()`: lazily create the context.  `new AudioContext()` throws when
the oracle says so; a fresh context starts suspended when the oracle says
so (autoplay policy).  The failure is NOT caught inside `init`. -/
def init (p : Platform) (s : State) : Except Unit State :=
  match s.context with
  | some _ => .ok s
  | none =>
    if p.contextFails then .error ()
    else
      .ok { s with
        context := some ⟨s.createdContexts,
          if p.newCtxSuspended then .suspended else .running⟩
        createdContexts := s.createdContexts + 1
        openContexts := s.createdContexts :: s.openContexts }

/-- `context.resume()` applied to the engine's context, when present. -/
def resumeCtx (s : State) : State :=
  match s.context with
  | some c => { s with context := some ⟨c.id, .running⟩ }
  | none => s

/-- `playTone(frequency, duration, type = 'sine', volume = 0.3)` of
`BreakoutAudioEngine`.  The disabled check comes first; then `this.init()`
and the resume of a suspended context run OUTSIDE the `try` block, so a
context-creation failure escapes to the caller (`Except.error`); only node
allocation and the scheduling calls are inside `try/catch`.  The gain is
set to `volume * masterVolume` (`adjustedVolume`). -/
def playTone (p : Platform) (now : ℚ) (frequency duration : ℚ)
    («type» : Waveform) (volume : ℚ) (s : State) :
    Except Unit (State × List Event) := do
  if !s.enabled then .ok (s, [])
  else
    let s1 ← init p s
    let s2 := if (s1.context.map Ctx.state) = some .suspended then resumeCtx s1 else s1
    if p.nodeAllocFails then .ok (s2, [])
    else
      .ok (s2,
        [ .setFreq frequency now,
          .setGain (volume * s2.masterVolume) now,
          .expRamp (1/100) (now + duration),
          .oscStart now,
          .oscStop (now + duration) ])

/-- `setEnabled(enabled)`: sets the flag, and additionally resumes the
context when enabling with an existing suspended context. -/
def setEnabled (enabled : Bool) (s : State) : State :=
  let s1 := { s with enabled := enabled }
  if enabled ∧ (s.context.map Ctx.state) = some .suspended then resumeCtx s1 else s1

/-- `setVolume(volume)`: `this.masterVolume = Math.max(0, Math.min(1, volume))`. -/
def setVolume (volume : ℚ) (s : State) : State :=
  { s with masterVolume := max 0 (min 1 volume) }

end BreakoutAudioEngine

namespace AudioPool

/-- State of an `AudioPool` instance (`src/EXAMPLES.md`, class `AudioPool`).
Gain nodes are identified by `Nat` ids; `nextNode` is the fresh-id source
for `context.createGain()`.  The head of `pool` models the top of the JS
array (its end, where `push`/`pop` operate). -/
structure State where
  maxSize : Nat
  pool : List Nat
  nextNode : Nat
deriving DecidableEq, Repr

/-- `new AudioPool(audioContext, maxSize = 10)`: empty pool. -/
def State.mk0 (maxSize : Nat) : State := ⟨maxSize, [], 0⟩

/-- `getGainNode()`: `pool.pop()` when the pool is nonempty, otherwise
`context.createGain()` (a fresh node). -/
def getGainNode (s : State) : State × Nat :=
  match s.pool with
  | g :: rest => ({ s with pool := rest }, g)
  | [] => ({ s with nextNode := s.nextNode + 1 }, s.nextNode)

/-- `releaseGainNode(node)`: only when `pool.length < maxSize`, disconnect
and reset the node and `pool.push(node)`; otherwise the node is silently
discarded. -/
def releaseGainNode (node : Nat) (s : State) : State :=
  if s.pool.length < s.maxSize then { s with pool := node :: s.pool } else s

/-- `clear()`: disconnect all pooled nodes and set `pool = []`. -/
def clear (s : State) : State :=
  { s with pool := [] }

end AudioPool

/-- A tone request: the four parameters of one `playTone` call. -/
structure ToneRequest where
  frequency : ℚ
  duration : ℚ
  waveform : Waveform
  volume : ℚ
deriving DecidableEq, Repr

/-- Modelled from the spec: the repository has no single `schedulePhrase`
function; the spec's `schedulePhrase(phrase)` generalizes the
`forEach`/`setTimeout` pattern of `SoundManager.playGameEnd`,
`BreakoutAudioEngine.levelComplete`, `ballLost` and `gameOver`: for each
`(tone, delay)` pair, `setTimeout(() => this.playTone(...), delay)`
arranges one deferred `playTone` call firing `delay` after invocation
time.  The result lists, in phrase order, each deferred call's absolute
fire time together with its tone request. -/
def schedulePhrase (now : ℚ) (phrase : List (ToneRequest × ℚ)) :
    List (ℚ × ToneRequest) :=
  phrase.map fun td => (now + td.2, td.1)

/-- `SoundManager.playGameEnd(isVictory)`: the victory branch schedules the
C-major arpeggio `[523, 659, 784, 1047]` with delays `i * 100` ms, each
note `playTone(freq, 0.2, 'sine', 0.25)`; the defeat branch schedules
`[392, 349, 330, 262]` with delays `i * 150` ms, each note
`playTone(freq, 0.25, 'sine', 0.2)`.  Delays are converted to seconds on
the absolute timeline (`setTimeout` takes milliseconds). -/
def SoundManager.playGameEnd (now : ℚ) (isVictory : Bool) :
    List (ℚ × ToneRequest) :=
  if isVictory then
    ([523, 659, 784, 1047] : List ℚ).enum.map fun p =>
      (now + p.1 * (100/1000), ⟨p.2, 2/10, .sine, 25/100⟩)
  else
    ([392, 349, 330, 262] : List ℚ).enum.map fun p =>
      (now + p.1 * (150/1000), ⟨p.2, 25/100, .sine, 2/10⟩)

/-- `BreakoutAudioEngine.levelComplete()`: melody `[262, 330, 392, 523]`
with delays `i * 120` ms, each note `playTone(freq, 0.25, 'sine', 0.4)`. -/
def BreakoutAudioEngine.levelComplete (now : ℚ) : List (ℚ × ToneRequest) :=
  ([262, 330, 392, 523] : List ℚ).enum.map fun p =>
    (now + p.1 * (120/1000), ⟨p.2, 25/100, .sine, 4/10⟩)

/-- The five scheduling events of one successful `playTone` call whose gain
envelope starts at `volume` (both engines schedule this same shape; the
Breakout engine passes `volume * masterVolume` as the gain value). -/
def toneEvents (now frequency duration volume : ℚ) : List Event :=
  [ .setFreq frequency now,
    .setGain volume now,
    .expRamp (1/100) (now + duration),
    .oscStart now,
    .oscStop (now + duration) ]

namespace SoundManager

/-- `playTone` applied to a `ToneRequest`, at clock reading `now`. -/
def playReq (p : Platform) (now : ℚ) (r : ToneRequest) (s : State) :
    State × List Event :=
  playTone p now r.frequency r.duration r.waveform r.volume s

/-- One event-loop step observed by a `SoundManager`: either a deferred
`playTone` call fires (with the clock reading at fire time), or the user
calls `setEnabled`.  Steps are listed in the order the event loop runs
them. -/
inductive TimedAction
  | fire (t : ℚ) (req : ToneRequest)
  | enable (b : Bool)
deriving DecidableEq, Repr

/-- Run a list of event-loop steps in order, concatenating the scheduled
events. -/
def runTimeline (p : Platform) (s : State) (acts : List TimedAction) :
    State × List Event :=
  match acts with
  | [] => (s, [])
  | .fire t r :: rest =>
    ((runTimeline p (playReq p t r s).1 rest).1,
      (playReq p t r s).2 ++ (runTimeline p (playReq p t r s).1 rest).2)
  | .enable b :: rest => runTimeline p (setEnabled b s) rest

/-- One operation of the public surface of a `SoundManager`, with the
platform oracle and clock reading seen by that call. -/
inductive Op
  | play (p : Platform) (now : ℚ) (req : ToneRequest)
  | enable (b : Bool)
  | getCtx (p : Platform)
  | close

/-- Apply one operation to the state (scheduled events discarded; a
`getContext()` call whose context creation throws leaves the state
unchanged, as in the source, where the field assignment never runs). -/
def stepOp (s : State) (op : Op) : State :=
  match op with
  | .play p now r => (playReq p now r s).1
  | .enable b => setEnabled b s
  | .getCtx p =>
    match getContext p s with
    | .ok (_, s1) => s1
    | .error _ => s
  | .close => dispose s

/-- Run a list of operations from a state. -/
def runOps (s : State) (ops : List Op) : State := ops.foldl stepOp s

/-- Context bookkeeping soundness: the list of contexts created and not yet
closed is exactly the engine's current context reference, and every handed
out context id is below the creation counter. -/
def invCheck (s : State) : Bool :=
  match s.audioContext with
  | some c => s.openContexts = [c] && c < s.createdContexts
  | none => s.openContexts = []

/-- State after `getContext()` ran (unchanged when the call threw). -/
def ensureCtx (p : Platform) (s : State) : State :=
  match getContext p s with
  | .ok (_, s1) => s1
  | .error _ => s

lemma playTone_disabled (p : Platform) (now f d : ℚ) (w : Waveform) (v : ℚ)
    (s : State) (h : s.enabled = false) :
    playTone p now f d w v s = (s, []) := by
  simp [playTone, h]

lemma getContext_some (p : Platform) (s : State) (c : Nat)
    (h : s.audioContext = some c) : getContext p s = .ok (c, s) := by
  simp [getContext, h]

lemma ensureCtx_some (p : Platform) (s : State) (c : Nat)
    (h : s.audioContext = some c) : ensureCtx p s = s := by
  simp [ensureCtx, getContext_some p s c h]

lemma playTone_ok (p : Platform) (now f d : ℚ) (w : Waveform) (v : ℚ)
    (s : State) (he : s.enabled = true) (hc : p.contextFails = false)
    (hn : p.nodeAllocFails = false) :
    playTone p now f d w v s = (ensureCtx p s, toneEvents now f d v) := by
  cases h : s.audioContext with
  | none =>
    simp [playTone, playToneBody, getContext, ensureCtx, toneEvents, h, he, hc, hn]
  | some c =>
    simp [playTone, playToneBody, getContext, ensureCtx, toneEvents, h, he, hn]

lemma playTone_caught (p : Platform) (now f d : ℚ) (w : Waveform) (v : ℚ)
    (s : State) (he : s.enabled = true)
    (hfail : (s.audioContext = none ∧ p.contextFails = true) ∨ p.nodeAllocFails = true) :
    (playTone p now f d w v s).2 = [] := by
  rcases hfail with ⟨hnone, hc⟩ | hn
  · simp [playTone, playToneBody, getContext, hnone, hc, he]
  · cases h : s.audioContext with
    | none =>
      cases hc : p.contextFails with
      | false => simp [playTone, playToneBody, getContext, h, he, hc, hn]
      | true => simp [playTone, playToneBody, getContext, h, he, hc]
    | some c =>
      simp [playTone, playToneBody, getContext, h, he, hn]

/-- `playTone` either leaves the state alone (disabled engine) or leaves it
as `getContext()` left it — whatever else happens inside the call. -/
lemma playTone_fst (p : Platform) (now f d : ℚ) (w : Waveform) (v : ℚ)
    (s : State) :
    (playTone p now f d w v s).1 = if s.enabled then ensureCtx p s else s := by
  cases he : s.enabled with
  | false => simp [playTone, he]
  | true =>
    cases h : s.audioContext with
    | none =>
      cases hc : p.contextFails with
      | false =>
        cases hn : p.nodeAllocFails with
        | false => simp [playTone, playToneBody, getContext, ensureCtx, h, he, hc, hn]
        | true => simp [playTone, playToneBody, getContext, ensureCtx, h, he, hc, hn]
      | true => simp [playTone, playToneBody, getContext, ensureCtx, h, he, hc]
    | some c =>
      cases hn : p.nodeAllocFails with
      | false => simp [playTone, playToneBody, getContext, ensureCtx, h, he, hn]
      | true => simp [playTone, playToneBody, getContext, ensureCtx, h, he, hn]

lemma invCheck_ensureCtx (p : Platform) (s : State) (h : invCheck s = true) :
    invCheck (ensureCtx p s) = true := by
  cases hac : s.audioContext with
  | some c => rw [ensureCtx_some p s c hac]; exact h
  | none =>
    cases hc : p.contextFails with
    | true => simpa [ensureCtx, getContext, hac, hc] using h
    | false =>
      simp [invCheck, hac] at h
      simp [ensureCtx, getContext, hac, hc, invCheck, h]

lemma invCheck_playTone (p : Platform) (now f d : ℚ) (w : Waveform) (v : ℚ)
    (s : State) (h : invCheck s = true) :
    invCheck (playTone p now f d w v s).1 = true := by
  rw [playTone_fst]
  cases he : s.enabled with
  | false => simpa using h
  | true => simpa using invCheck_ensureCtx p s h

lemma invCheck_setEnabled (b : Bool) (s : State) (h : invCheck s = true) :
    invCheck (setEnabled b s) = true := by
  cases hac : s.audioContext with
  | some c => simpa [invCheck, setEnabled, hac] using h
  | none => simpa [invCheck, setEnabled, hac] using h

lemma invCheck_dispose (s : State) (h : invCheck s = true) :
    invCheck (dispose s) = true := by
  cases hac : s.audioContext with
  | some c =>
    simp [invCheck, hac] at h
    simp [dispose, hac, invCheck, h.1]
  | none => simpa [dispose, hac] using h

lemma invCheck_stepOp (s : State) (op : Op) (h : invCheck s = true) :
    invCheck (stepOp s op) = true := by
  cases op with
  | play p now r => exact invCheck_playTone p now r.frequency r.duration r.waveform r.volume s h
  | enable b => exact invCheck_setEnabled b s h
  | getCtx p =>
    have := invCheck_ensureCtx p s h
    simpa [stepOp, ensureCtx] using this
  | close => exact invCheck_dispose s h

lemma invCheck_runOps (s : State) (ops : List Op) (h : invCheck s = true) :
    invCheck (runOps s ops) = true := by
  induction ops generalizing s with
  | nil => simpa [runOps] using h
  | cons op rest ih =>
    have h1 := invCheck_stepOp s op h
    simpa [runOps, List.foldl_cons] using ih (stepOp s op) h1

lemma invCheck_openContexts_len (s : State) (h : invCheck s = true) :
    s.openContexts.length ≤ 1 := by
  cases hac : s.audioContext with
  | some c => simp [invCheck, hac] at h; simp [h.1]
  | none => simp [invCheck, hac] at h; simp [h]

lemma runTimeline_append (p : Platform) (s : State) (l1 l2 : List TimedAction) :
    runTimeline p s (l1 ++ l2) =
      ((runTimeline p (runTimeline p s l1).1 l2).1,
       (runTimeline p s l1).2 ++ (runTimeline p (runTimeline p s l1).1 l2).2) := by
  induction l1 generalizing s with
  | nil => simp [runTimeline]
  | cons a rest ih =>
    cases a with
    | fire t r => simp [runTimeline, ih]
    | enable b => simp [runTimeline, ih]

/-- Firing any number of deferred `playTone` calls on a disabled engine
changes nothing and schedules nothing. -/
lemma runTimeline_fires_disabled (p : Platform) (s : State)
    (h : s.enabled = false) (items : List (ℚ × ToneRequest)) :
    runTimeline p s (items.map fun it => .fire it.1 it.2) = (s, []) := by
  induction items with
  | nil => simp [runTimeline]
  | cons it rest ih =>
    simp [runTimeline, playReq, playTone_disabled p it.1 it.2.frequency it.2.duration
      it.2.waveform it.2.volume s h, ih]

end SoundManager

namespace BreakoutAudioEngine

lemma bk_playTone_disabled (p : Platform) (now f d : ℚ) (w : Waveform) (v : ℚ)
    (s : State) (h : s.enabled = false) :
    playTone p now f d w v s = .ok (s, []) := by
  simp [playTone, h]

/-- A context-creation failure inside `init()` escapes `playTone` on the
Breakout engine: `this.init()` runs before the `try` block. -/
lemma bk_playTone_ctxFail (p : Platform) (now f d : ℚ) (w : Waveform) (v : ℚ)
    (s : State) (he : s.enabled = true) (hc : s.context = none)
    (hf : p.contextFails = true) :
    playTone p now f d w v s = .error () := by
  simp [playTone, init, bind, Except.bind, he, hc, hf]

/-- A node-allocation failure on the Breakout engine is caught: the call
returns normally with nothing scheduled (the context, already ensured and
resumed before the `try` block, is kept). -/
lemma bk_playTone_nodeFail (p : Platform) (now f d : ℚ) (w : Waveform) (v : ℚ)
    (s : State) (he : s.enabled = true) (hs : s.context.isSome = true)
    (hn : p.nodeAllocFails = true) :
    ∃ s2, playTone p now f d w v s = .ok (s2, []) := by
  rcases hc : s.context with _ | ⟨i, cs⟩
  · rw [hc] at hs; simp at hs
  · cases cs with
    | running =>
      exact ⟨s, by simp [playTone, init, bind, Except.bind, he, hc, hn]⟩
    | suspended =>
      exact ⟨resumeCtx s, by simp [playTone, init, resumeCtx, bind, Except.bind, he, hc, hn]⟩

/-- Successful `playTone` on the Breakout engine: the scheduled events are
the standard five, with gain starting at `volume * masterVolume`. -/
lemma bk_playTone_ok (p : Platform) (now f d : ℚ) (w : Waveform) (v : ℚ)
    (s : State) (he : s.enabled = true) (hc : p.contextFails = false)
    (hn : p.nodeAllocFails = false) :
    ∃ s2, playTone p now f d w v s = .ok (s2, toneEvents now f d (v * s.masterVolume))
      ∧ s2.masterVolume = s.masterVolume
      ∧ s2.enabled = s.enabled := by
  rcases hctx : s.context with _ | ⟨i, cs⟩
  · refine ⟨{ s with
        context := some (⟨s.createdContexts, CtxState.running⟩ : Ctx)
        createdContexts := s.createdContexts + 1
        openContexts := s.createdContexts :: s.openContexts }, ?_, rfl, rfl⟩
    cases hsusp : p.newCtxSuspended with
    | false =>
      simp [playTone, init, resumeCtx, bind, Except.bind, he, hctx, hc, hn, hsusp, toneEvents]
    | true =>
      simp [playTone, init, resumeCtx, bind, Except.bind, he, hctx, hc, hn, hsusp, toneEvents]
  · cases cs with
    | running =>
      refine ⟨s, ?_, rfl, rfl⟩
      simp [playTone, init, bind, Except.bind, he, hctx, hn, toneEvents]
    | suspended =>
      refine ⟨resumeCtx s, ?_, by simp [resumeCtx, hctx], by simp [resumeCtx, hctx]⟩
      simp [playTone, init, resumeCtx, bind, Except.bind, he, hctx, hn, toneEvents]

end BreakoutAudioEngine

/-- C10: for every `AudioPool` with capacity `maxSize`, `getGainNode`,
`releaseGainNode` and `clear` each preserve `pool.length ≤ maxSize` (and
leave `maxSize` itself unchanged), and `releaseGainNode` silently discards
the node — the pool is unchanged — when the pool is already full. -/
theorem C10_audioPool_capacity (s : AudioPool.State) (node : Nat)
    (h : s.pool.length ≤ s.maxSize) :
    ((AudioPool.getGainNode s).1.pool.length ≤ s.maxSize
      ∧ (AudioPool.getGainNode s).1.maxSize = s.maxSize)
    ∧ ((AudioPool.releaseGainNode node s).pool.length ≤ s.maxSize
      ∧ (AudioPool.releaseGainNode node s).maxSize = s.maxSize)
    ∧ ((AudioPool.clear s).pool.length ≤ s.maxSize
      ∧ (AudioPool.clear s).maxSize = s.maxSize)
    ∧ (s.pool.length = s.maxSize → AudioPool.releaseGainNode node s = s) := by
  refine ⟨⟨?_, ?_⟩, ⟨?_, ?_⟩, ⟨?_, ?_⟩, ?_⟩
  · rcases hp : s.pool with _ | ⟨g, rest⟩
    · simp [AudioPool.getGainNode, hp]
    · rw [hp] at h
      simp [AudioPool.getGainNode, hp]
      simp at h
      omega
  · rcases hp : s.pool with _ | ⟨g, rest⟩ <;> simp [AudioPool.getGainNode, hp]
  · by_cases hlt : s.pool.length < s.maxSize
    · simp [AudioPool.releaseGainNode, hlt]
      omega
    · simpa [AudioPool.releaseGainNode, hlt] using h
  · by_cases hlt : s.pool.length < s.maxSize <;>
      simp [AudioPool.releaseGainNode, hlt]
  · simp [AudioPool.clear]
  · simp [AudioPool.clear]
  · intro hfull
    have : ¬ s.pool.length < s.maxSize := by omega
    simp [AudioPool.releaseGainNode, this]

/-- Witness for C10 at the concrete pool `⟨2, [5], 7⟩` and node `9`. -/
theorem C10_witness :
    (⟨2, [5], 7⟩ : AudioPool.State).pool.length ≤ (⟨2, [5], 7⟩ : AudioPool.State).maxSize
    ∧ (((AudioPool.getGainNode ⟨2, [5], 7⟩).1.pool.length ≤ (⟨2, [5], 7⟩ : AudioPool.State).maxSize
      ∧ (AudioPool.getGainNode ⟨2, [5], 7⟩).1.maxSize = (⟨2, [5], 7⟩ : AudioPool.State).maxSize)
    ∧ ((AudioPool.releaseGainNode 9 ⟨2, [5], 7⟩).pool.length ≤ (⟨2, [5], 7⟩ : AudioPool.State).maxSize
      ∧ (AudioPool.releaseGainNode 9 ⟨2, [5], 7⟩).maxSize = (⟨2, [5], 7⟩ : AudioPool.State).maxSize)
    ∧ ((AudioPool.clear ⟨2, [5], 7⟩).pool.length ≤ (⟨2, [5], 7⟩ : AudioPool.State).maxSize
      ∧ (AudioPool.clear ⟨2, [5], 7⟩).maxSize = (⟨2, [5], 7⟩ : AudioPool.State).maxSize)
    ∧ ((⟨2, [5], 7⟩ : AudioPool.State).pool.length = (⟨2, [5], 7⟩ : AudioPool.State).maxSize →
        AudioPool.releaseGainNode 9 ⟨2, [5], 7⟩ = ⟨2, [5], 7⟩)) :=
  ⟨by decide, C10_audioPool_capacity ⟨2, [5], 7⟩ 9 (by decide)⟩

/-- C2: on an enabled engine with a working platform, a `playTone` call
with valid parameters schedules exactly one oscillator start event (at
`currentTime`) and exactly one stop event (at `currentTime + duration`),
and the stop time minus the start time is exactly `duration`; this holds
for both the `SoundManager` and the `BreakoutAudioEngine`. -/
theorem C2_one_start_one_stop (p : Platform) (now f d : ℚ) (w : Waveform) (v : ℚ)
    (s : SoundManager.State) (bs : BreakoutAudioEngine.State)
    (hf : 0 < f) (hd : 0 < d) (hv0 : 0 ≤ v) (hv1 : v ≤ 1)
    (he : s.enabled = true) (hbe : bs.enabled = true)
    (hc : p.contextFails = false) (hn : p.nodeAllocFails = false) :
    (startTimes (SoundManager.playTone p now f d w v s).2 = [now]
      ∧ stopTimes (SoundManager.playTone p now f d w v s).2 = [now + d]
      ∧ (now + d) - now = d)
    ∧ (∃ bs2, BreakoutAudioEngine.playTone p now f d w v bs
          = .ok (bs2, toneEvents now f d (v * bs.masterVolume))
        ∧ startTimes (toneEvents now f d (v * bs.masterVolume)) = [now]
        ∧ stopTimes (toneEvents now f d (v * bs.masterVolume)) = [now + d]) := by
  refine ⟨⟨?_, ?_, by ring⟩, ?_⟩
  · rw [SoundManager.playTone_ok p now f d w v s he hc hn]
    simp [toneEvents, startTimes]
  · rw [SoundManager.playTone_ok p now f d w v s he hc hn]
    simp [toneEvents, stopTimes]
  · obtain ⟨bs2, hok, _, _⟩ :=
      BreakoutAudioEngine.bk_playTone_ok p now f d w v bs hbe hc hn
    exact ⟨bs2, hok, by simp [toneEvents, startTimes], by simp [toneEvents, stopTimes]⟩

/-- Witness for C2: `playTone(440, 0.1, sine, 0.3)` at clock `0` on fresh
enabled engines with a fully working platform. -/
theorem C2_witness :
    ((0:ℚ) < 440 ∧ (0:ℚ) < 1/10 ∧ (0:ℚ) ≤ 3/10 ∧ (3/10:ℚ) ≤ 1
      ∧ SoundManager.State.initial.enabled = true
      ∧ BreakoutAudioEngine.State.initial.enabled = true
      ∧ Platform.ok.contextFails = false ∧ Platform.ok.nodeAllocFails = false)
    ∧ ((startTimes (SoundManager.playTone Platform.ok 0 440 (1/10) .sine (3/10) SoundManager.State.initial).2 = [0]
      ∧ stopTimes (SoundManager.playTone Platform.ok 0 440 (1/10) .sine (3/10) SoundManager.State.initial).2 = [0 + 1/10]
      ∧ ((0:ℚ) + 1/10) - 0 = 1/10)
    ∧ (∃ bs2, BreakoutAudioEngine.playTone Platform.ok 0 440 (1/10) .sine (3/10) BreakoutAudioEngine.State.initial
          = .ok (bs2, toneEvents 0 440 (1/10) ((3/10) * BreakoutAudioEngine.State.initial.masterVolume))
        ∧ startTimes (toneEvents 0 440 (1/10) ((3/10) * BreakoutAudioEngine.State.initial.masterVolume)) = [0]
        ∧ stopTimes (toneEvents 0 440 (1/10) ((3/10) * BreakoutAudioEngine.State.initial.masterVolume)) = [0 + 1/10])) :=
  ⟨⟨by norm_num, by norm_num, by norm_num, by norm_num, rfl, rfl, rfl, rfl⟩,
    C2_one_start_one_stop Platform.ok 0 440 (1/10) .sine (3/10)
      SoundManager.State.initial BreakoutAudioEngine.State.initial
      (by norm_num) (by norm_num) (by norm_num) (by norm_num) rfl rfl rfl rfl⟩


/-- C3: after `setEnabled(false)`, any number of subsequent `playTone`
calls are no-ops — the state (in particular the context field) is
untouched, no context is created, nothing is scheduled and no error is
raised (the calls are total) — and after a later `setEnabled(true)` a
`playTone` call schedules a voice normally again; the no-op part holds for
the `BreakoutAudioEngine` as well. -/
theorem C3_disabled_noop_reenable (p : Platform) (s : SoundManager.State)
    (bs : BreakoutAudioEngine.State) (items : List (ℚ × ToneRequest))
    (now f d : ℚ) (w : Waveform) (v : ℚ)
    (hc : p.contextFails = false) (hn : p.nodeAllocFails = false) :
    (SoundManager.runTimeline p (SoundManager.setEnabled false s)
        (items.map fun it => .fire it.1 it.2)
      = (SoundManager.setEnabled false s, []))
    ∧ (SoundManager.setEnabled false s).audioContext = s.audioContext
    ∧ (SoundManager.playTone p now f d w v
        (SoundManager.setEnabled true (SoundManager.setEnabled false s))).2
      = toneEvents now f d v
    ∧ BreakoutAudioEngine.playTone p now f d w v
        (BreakoutAudioEngine.setEnabled false bs)
      = .ok (BreakoutAudioEngine.setEnabled false bs, []) := by
  refine ⟨?_, rfl, ?_, ?_⟩
  · exact SoundManager.runTimeline_fires_disabled p _ rfl items
  · have := SoundManager.playTone_ok p now f d w v
      (SoundManager.setEnabled true (SoundManager.setEnabled false s)) rfl hc hn
    rw [this]
  · exact BreakoutAudioEngine.bk_playTone_disabled p now f d w v _
      (by simp [BreakoutAudioEngine.setEnabled])

/-- Witness for C3 at a concrete two-note phrase on fresh engines. -/
theorem C3_witness :
    (Platform.ok.contextFails = false ∧ Platform.ok.nodeAllocFails = false)
    ∧ ((SoundManager.runTimeline Platform.ok
          (SoundManager.setEnabled false SoundManager.State.initial)
          (([(0, ⟨440, 1/10, .sine, 2/10⟩), (1/20, ⟨523, 2/25, .sine, 3/20⟩)]
              : List (ℚ × ToneRequest)).map fun it => .fire it.1 it.2)
        = (SoundManager.setEnabled false SoundManager.State.initial, []))
    ∧ (SoundManager.setEnabled false SoundManager.State.initial).audioContext
        = SoundManager.State.initial.audioContext
    ∧ (SoundManager.playTone Platform.ok 1 440 (1/10) .sine (3/10)
        (SoundManager.setEnabled true
          (SoundManager.setEnabled false SoundManager.State.initial))).2
      = toneEvents 1 440 (1/10) (3/10)
    ∧ BreakoutAudioEngine.playTone Platform.ok 1 440 (1/10) .sine (3/10)
        (BreakoutAudioEngine.setEnabled false BreakoutAudioEngine.State.initial)
      = .ok (BreakoutAudioEngine.setEnabled false BreakoutAudioEngine.State.initial, [])) :=
  ⟨⟨rfl, rfl⟩,
    C3_disabled_noop_reenable Platform.ok SoundManager.State.initial
      BreakoutAudioEngine.State.initial
      [(0, ⟨440, 1/10, .sine, 2/10⟩), (1/20, ⟨523, 2/25, .sine, 3/20⟩)]
      1 440 (1/10) .sine (3/10) rfl rfl⟩

/-- C5: context acquisition is idempotent and the engine holds at most one
open context at any time: if a `SoundManager.getContext()` call returns
context `c` in state `s1`, calling it again returns the same `c` and the
very same state (no second context is created); every state reachable from
a fresh `SoundManager` by any operation sequence has at most one open
context; and `BreakoutAudioEngine.init()` is idempotent in the same way. -/
theorem C5_context_idempotent (p : Platform) (s : SoundManager.State)
    (c : Nat) (s1 : SoundManager.State) (ops : List SoundManager.Op)
    (h : SoundManager.getContext p s = .ok (c, s1)) :
    SoundManager.getContext p s1 = .ok (c, s1)
    ∧ (SoundManager.runOps SoundManager.State.initial ops).openContexts.length ≤ 1
    ∧ (∀ (bs bs1 : BreakoutAudioEngine.State),
        BreakoutAudioEngine.init p bs = .ok bs1 →
        BreakoutAudioEngine.init p bs1 = .ok bs1) := by
  refine ⟨?_, ?_, ?_⟩
  · rcases hac : s.audioContext with _ | c0
    · cases hcf : p.contextFails with
      | true => simp [SoundManager.getContext, hac, hcf] at h
      | false =>
        simp [SoundManager.getContext, hac, hcf] at h
        obtain ⟨hcv, hs1⟩ := h
        rw [← hs1, ← hcv]
        simp [SoundManager.getContext]
    · have := SoundManager.getContext_some p s c0 hac
      rw [this] at h
      obtain ⟨hcv, hs1⟩ := by simpa using h
      rw [← hs1, ← hcv]
      exact SoundManager.getContext_some p s c0 hac
  · exact SoundManager.invCheck_openContexts_len _
      (SoundManager.invCheck_runOps SoundManager.State.initial ops rfl)
  · intro bs bs1 hinit
    rcases hac : bs.context with _ | c0
    · cases hcf : p.contextFails with
      | true => simp [BreakoutAudioEngine.init, hac, hcf] at hinit
      | false =>
        simp [BreakoutAudioEngine.init, hac, hcf] at hinit
        rw [← hinit]
        simp [BreakoutAudioEngine.init]
    · simp [BreakoutAudioEngine.init, hac] at hinit
      rw [← hinit]
      simp [BreakoutAudioEngine.init, hac]

/-- Witness for C5: the first `getContext()` on a fresh `SoundManager`
creates context `0`; the theorem is applied to that call together with a
small operation sequence (a tone, a dispose, a second acquisition). -/
theorem C5_witness :
    SoundManager.getContext Platform.ok SoundManager.State.initial
      = .ok (0, ⟨some 0, true, 1, [0]⟩)
    ∧ (SoundManager.getContext Platform.ok ⟨some 0, true, 1, [0]⟩
        = .ok (0, ⟨some 0, true, 1, [0]⟩)
    ∧ (SoundManager.runOps SoundManager.State.initial
        [.play Platform.ok 0 ⟨440, 1/10, .sine, 3/10⟩, .close,
          .getCtx Platform.ok]).openContexts.length ≤ 1
    ∧ (∀ (bs bs1 : BreakoutAudioEngine.State),
        BreakoutAudioEngine.init Platform.ok bs = .ok bs1 →
        BreakoutAudioEngine.init Platform.ok bs1 = .ok bs1)) :=
  ⟨rfl,
    C5_context_idempotent Platform.ok SoundManager.State.initial 0
      ⟨some 0, true, 1, [0]⟩
      [.play Platform.ok 0 ⟨440, 1/10, .sine, 3/10⟩, .close, .getCtx Platform.ok]
      rfl⟩

/-- C6: scheduling a phrase of `N` (tone, delay) pairs arranges exactly `N`
deferred `playTone` invocations, the `i`-th firing at its own delay offset
from invocation time whatever the order of the delays, and independent of
every other entry (appending further entries never changes the earlier
ones, so no deferred call waits for an earlier voice); the victory and
defeat phrases of `SoundManager.playGameEnd` and the
`BreakoutAudioEngine.levelComplete` melody are instances of this pattern. -/
theorem C6_schedulePhrase_independent (now : ℚ) (phrase : List (ToneRequest × ℚ)) :
    (schedulePhrase now phrase).length = phrase.length
    ∧ (∀ i (h : i < phrase.length),
        (schedulePhrase now phrase).get ⟨i, by simpa [schedulePhrase] using h⟩
          = (now + (phrase.get ⟨i, h⟩).2, (phrase.get ⟨i, h⟩).1))
    ∧ (∀ phrase2 : List (ToneRequest × ℚ),
        schedulePhrase now (phrase ++ phrase2)
          = schedulePhrase now phrase ++ schedulePhrase now phrase2)
    ∧ SoundManager.playGameEnd now true
        = schedulePhrase now
            [(⟨523, 2/10, .sine, 25/100⟩, 0), (⟨659, 2/10, .sine, 25/100⟩, 1/10),
              (⟨784, 2/10, .sine, 25/100⟩, 2/10), (⟨1047, 2/10, .sine, 25/100⟩, 3/10)]
    ∧ SoundManager.playGameEnd now false
        = schedulePhrase now
            [(⟨392, 25/100, .sine, 2/10⟩, 0), (⟨349, 25/100, .sine, 2/10⟩, 3/20),
              (⟨330, 25/100, .sine, 2/10⟩, 3/10), (⟨262, 25/100, .sine, 2/10⟩, 9/20)]
    ∧ BreakoutAudioEngine.levelComplete now
        = schedulePhrase now
            [(⟨262, 25/100, .sine, 4/10⟩, 0), (⟨330, 25/100, .sine, 4/10⟩, 12/100),
              (⟨392, 25/100, .sine, 4/10⟩, 24/100), (⟨523, 25/100, .sine, 4/10⟩, 36/100)] := by
  refine ⟨?_, ?_, ?_, ?_, ?_, ?_⟩
  · simp [schedulePhrase]
  · intro i h
    simp [schedulePhrase]
  · intro phrase2
    simp [schedulePhrase]
  · norm_num [SoundManager.playGameEnd, schedulePhrase, List.enum, List.enumFrom]
  · norm_num [SoundManager.playGameEnd, schedulePhrase, List.enum, List.enumFrom]
  · norm_num [BreakoutAudioEngine.levelComplete, schedulePhrase, List.enum, List.enumFrom]

/-- Witness for C6: the single-entry phrase `[(440 Hz for 1 s, delay 5 s)]`
fires exactly at `now + 5`. -/
theorem C6_witness :
    (schedulePhrase 0 [(⟨440, 1, .sine, 1⟩, 5)]).get ⟨0, by decide⟩
      = (0 + 5, (⟨440, 1, Waveform.sine, 1⟩ : ToneRequest)) :=
  (C6_schedulePhrase_independent 0 [(⟨440, 1, .sine, 1⟩, 5)]).2.1 0 (by decide)

/-- Counterexample to C8 as stated: on the Breakout engine with an existing
suspended context, `setEnabled(true)` does more than set the mute flag — it
also resumes the context (`context.resume()` in `setEnabled`), so the
resulting state differs from the same state with only the flag changed. -/
theorem C8_counterexample :
    BreakoutAudioEngine.setEnabled true
        ⟨some ⟨0, .suspended⟩, false, 7/10, 1, [0]⟩
      ≠ { (⟨some ⟨0, .suspended⟩, false, 7/10, 1, [0]⟩ : BreakoutAudioEngine.State) with
          enabled := true } := by
  decide

/-- C8 amended: `setEnabled(b)` never touches scheduled voices (it
schedules and cancels nothing) and gates only future `playTone` calls.  On
`SoundManager` it changes exactly the `enabled` flag.  On
`BreakoutAudioEngine` it changes the `enabled` flag, keeps `masterVolume`
and the context reference, and — the one exception to "no other change" —
when called with `true` while the existing context is suspended it also
resumes that context; in every other case it too changes only the flag. -/
theorem C8_setEnabled_amended (b : Bool) (s : SoundManager.State)
    (bs : BreakoutAudioEngine.State) :
    SoundManager.setEnabled b s = { s with enabled := b }
    ∧ (BreakoutAudioEngine.setEnabled b bs).enabled = b
    ∧ (BreakoutAudioEngine.setEnabled b bs).masterVolume = bs.masterVolume
    ∧ ((BreakoutAudioEngine.setEnabled b bs).context.map BreakoutAudioEngine.Ctx.id)
        = (bs.context.map BreakoutAudioEngine.Ctx.id)
    ∧ (¬ (b = true ∧ (bs.context.map BreakoutAudioEngine.Ctx.state)
            = some .suspended) →
        BreakoutAudioEngine.setEnabled b bs = { bs with enabled := b })
    ∧ ((b = true ∧ (bs.context.map BreakoutAudioEngine.Ctx.state)
            = some .suspended) →
        BreakoutAudioEngine.setEnabled b bs
          = BreakoutAudioEngine.resumeCtx { bs with enabled := b }) := by
  refine ⟨rfl, ?_, ?_, ?_, ?_, ?_⟩
  · rcases hac : bs.context with _ | c
    · simp [BreakoutAudioEngine.setEnabled, hac]
    · cases hcs : c.state with
      | running =>
        simp [BreakoutAudioEngine.setEnabled, BreakoutAudioEngine.resumeCtx, hac, hcs]
      | suspended =>
        cases b with
        | false => simp [BreakoutAudioEngine.setEnabled, hac, hcs]
        | true =>
          simp [BreakoutAudioEngine.setEnabled, BreakoutAudioEngine.resumeCtx, hac, hcs]
  · rcases hac : bs.context with _ | c
    · simp [BreakoutAudioEngine.setEnabled, hac]
    · cases hcs : c.state with
      | running =>
        simp [BreakoutAudioEngine.setEnabled, BreakoutAudioEngine.resumeCtx, hac, hcs]
      | suspended =>
        cases b with
        | false => simp [BreakoutAudioEngine.setEnabled, hac, hcs]
        | true =>
          simp [BreakoutAudioEngine.setEnabled, BreakoutAudioEngine.resumeCtx, hac, hcs]
  · rcases hac : bs.context with _ | c
    · simp [BreakoutAudioEngine.setEnabled, hac]
    · cases hcs : c.state with
      | running =>
        simp [BreakoutAudioEngine.setEnabled, BreakoutAudioEngine.resumeCtx, hac, hcs]
      | suspended =>
        cases b with
        | false => simp [BreakoutAudioEngine.setEnabled, hac, hcs]
        | true =>
          simp [BreakoutAudioEngine.setEnabled, BreakoutAudioEngine.resumeCtx, hac, hcs]
  · intro h
    rcases hac : bs.context with _ | c
    · simp [BreakoutAudioEngine.setEnabled, hac]
    · cases hcs : c.state with
      | running =>
        simp [BreakoutAudioEngine.setEnabled, hac, hcs]
      | suspended =>
        cases b with
        | false => simp [BreakoutAudioEngine.setEnabled, hac, hcs]
        | true => exact absurd ⟨rfl, by simp [hac, hcs]⟩ h
  · intro h
    obtain ⟨hb, hsusp⟩ := h
    subst hb
    rcases hac : bs.context with _ | c
    · rw [hac] at hsusp
      simp at hsusp
    · have hcs : c.state = .suspended := by
        rw [hac] at hsusp
        simpa using hsusp
      simp [BreakoutAudioEngine.setEnabled, BreakoutAudioEngine.resumeCtx, hac, hcs]

/-- Witness for C8 at the suspended-context Breakout state: enabling
resumes the context (the exceptional branch of the amended claim). -/
theorem C8_witness :
    BreakoutAudioEngine.setEnabled true
        ⟨some ⟨0, .suspended⟩, false, 7/10, 1, [0]⟩
      = BreakoutAudioEngine.resumeCtx
          { (⟨some ⟨0, .suspended⟩, false, 7/10, 1, [0]⟩ : BreakoutAudioEngine.State) with
            enabled := true } :=
  (C8_setEnabled_amended true SoundManager.State.initial
      ⟨some ⟨0, .suspended⟩, false, 7/10, 1, [0]⟩).2.2.2.2.2 ⟨rfl, rfl⟩

/-- C9: after `dispose()` the `SoundManager` consistently follows the
auto-recreate policy, never the UseAfterDispose-error policy: the context
field is cleared and the context closed; the next `getContext()` call
returns normally (no error of any kind) with a freshly created context
distinct from the disposed one; and a subsequent `playTone` also operates
normally, scheduling the standard events.  `invCheck` is the context
bookkeeping soundness invariant, which holds in every reachable state. -/
theorem C9_dispose_auto_recreate (p : Platform) (s : SoundManager.State)
    (now f d : ℚ) (w : Waveform) (v : ℚ)
    (hinv : SoundManager.invCheck s = true) (he : s.enabled = true)
    (hc : p.contextFails = false) (hn : p.nodeAllocFails = false) :
    (SoundManager.dispose s).audioContext = none
    ∧ (SoundManager.dispose s).openContexts = []
    ∧ SoundManager.getContext p (SoundManager.dispose s)
        = .ok (s.createdContexts,
            { SoundManager.dispose s with
              audioContext := some s.createdContexts
              createdContexts := s.createdContexts + 1
              openContexts := [s.createdContexts] })
    ∧ (∀ c, s.audioContext = some c → s.createdContexts ≠ c)
    ∧ (SoundManager.playTone p now f d w v (SoundManager.dispose s)).2
        = toneEvents now f d v := by
  have hnone : (SoundManager.dispose s).audioContext = none := by
    rcases hac : s.audioContext with _ | c
    · simp [SoundManager.dispose, hac]
    · simp [SoundManager.dispose, hac]
  have hopen : (SoundManager.dispose s).openContexts = [] := by
    rcases hac : s.audioContext with _ | c
    · simp [SoundManager.invCheck, hac] at hinv
      simp [SoundManager.dispose, hac, hinv]
    · simp [SoundManager.invCheck, hac] at hinv
      simp [SoundManager.dispose, hac, hinv.1]
  have hcreated : (SoundManager.dispose s).createdContexts = s.createdContexts := by
    rcases hac : s.audioContext with _ | c
    · simp [SoundManager.dispose, hac]
    · simp [SoundManager.dispose, hac]
  have henabled : (SoundManager.dispose s).enabled = s.enabled := by
    rcases hac : s.audioContext with _ | c
    · simp [SoundManager.dispose, hac]
    · simp [SoundManager.dispose, hac]
  refine ⟨hnone, hopen, ?_, ?_, ?_⟩
  · simp [SoundManager.getContext, hnone, hc, hcreated, hopen]
  · intro c hac
    have : c < s.createdContexts := by
      simp [SoundManager.invCheck, hac] at hinv
      exact hinv.2
    omega
  · rw [SoundManager.playTone_ok p now f d w v (SoundManager.dispose s)
      (by rw [henabled, he]) hc hn]

/-- Witness for C9 at the engine state holding open context `0` (one
context created so far): disposing clears it and the next acquisition
creates the distinct fresh context `1`. -/
theorem C9_witness :
    (SoundManager.invCheck ⟨some 0, true, 1, [0]⟩ = true
      ∧ (⟨some 0, true, 1, [0]⟩ : SoundManager.State).enabled = true)
    ∧ ((SoundManager.dispose ⟨some 0, true, 1, [0]⟩).audioContext = none
    ∧ (SoundManager.dispose ⟨some 0, true, 1, [0]⟩).openContexts = []
    ∧ SoundManager.getContext Platform.ok (SoundManager.dispose ⟨some 0, true, 1, [0]⟩)
        = .ok ((⟨some 0, true, 1, [0]⟩ : SoundManager.State).createdContexts,
            { SoundManager.dispose ⟨some 0, true, 1, [0]⟩ with
              audioContext := some (⟨some 0, true, 1, [0]⟩ : SoundManager.State).createdContexts
              createdContexts := (⟨some 0, true, 1, [0]⟩ : SoundManager.State).createdContexts + 1
              openContexts := [(⟨some 0, true, 1, [0]⟩ : SoundManager.State).createdContexts] })
    ∧ (∀ c, (⟨some 0, true, 1, [0]⟩ : SoundManager.State).audioContext = some c →
        (⟨some 0, true, 1, [0]⟩ : SoundManager.State).createdContexts ≠ c)
    ∧ (SoundManager.playTone Platform.ok 0 440 (1/10) .sine (3/10)
        (SoundManager.dispose ⟨some 0, true, 1, [0]⟩)).2
        = toneEvents 0 440 (1/10) (3/10)) :=
  ⟨⟨by decide, rfl⟩,
    C9_dispose_auto_recreate Platform.ok ⟨some 0, true, 1, [0]⟩ 0 440 (1/10) .sine (3/10)
      (by decide) rfl rfl rfl⟩

/-- C7: with the engine disabled at phrase start, every deferred call of
the phrase still fires but is a no-op via `playTone`'s own enabled check at
fire time: the notes fired while disabled leave the state untouched and
contribute no events; a `setEnabled(true)` between the early and the late
notes makes the run produce exactly the events of the late notes run from
the enabled state — the skipped early notes are never replayed — and each
late note then schedules a voice normally (per-note gating, not
phrase-level gating). -/
theorem C7_per_note_gating (p : Platform) (s : SoundManager.State)
    (early late : List (ℚ × ToneRequest)) (hd : s.enabled = false)
    (hc : p.contextFails = false) (hn : p.nodeAllocFails = false) :
    SoundManager.runTimeline p s
        ((early.map fun it => SoundManager.TimedAction.fire it.1 it.2)
          ++ SoundManager.TimedAction.enable true
            :: (late.map fun it => SoundManager.TimedAction.fire it.1 it.2))
      = SoundManager.runTimeline p (SoundManager.setEnabled true s)
          (late.map fun it => SoundManager.TimedAction.fire it.1 it.2)
    ∧ SoundManager.runTimeline p s
        (early.map fun it => SoundManager.TimedAction.fire it.1 it.2) = (s, [])
    ∧ (∀ t r, (SoundManager.playReq p t r (SoundManager.setEnabled true s)).2
        = toneEvents t r.frequency r.duration r.volume) := by
  have hearly := SoundManager.runTimeline_fires_disabled p s hd early
  refine ⟨?_, hearly, ?_⟩
  · rw [SoundManager.runTimeline_append, hearly]
    simp [SoundManager.runTimeline]
  · intro t r
    rw [SoundManager.playReq,
      SoundManager.playTone_ok p t r.frequency r.duration r.waveform r.volume
        (SoundManager.setEnabled true s) rfl hc hn]

/-- Witness for C7: a one-note early phrase skipped while disabled followed
by a one-note late phrase after re-enabling, on a fresh disabled engine. -/
theorem C7_witness :
    SoundManager.runTimeline Platform.ok ⟨none, false, 0, []⟩
        ((([(0, ⟨440, 1/10, .sine, 2/10⟩)] : List (ℚ × ToneRequest)).map
            fun it => SoundManager.TimedAction.fire it.1 it.2)
          ++ SoundManager.TimedAction.enable true
            :: (([(1/10, ⟨523, 2/25, .sine, 3/20⟩)] : List (ℚ × ToneRequest)).map
                fun it => SoundManager.TimedAction.fire it.1 it.2))
      = SoundManager.runTimeline Platform.ok
          (SoundManager.setEnabled true ⟨none, false, 0, []⟩)
          (([(1/10, ⟨523, 2/25, .sine, 3/20⟩)] : List (ℚ × ToneRequest)).map
            fun it => SoundManager.TimedAction.fire it.1 it.2) :=
  (C7_per_note_gating Platform.ok ⟨none, false, 0, []⟩
      [(0, ⟨440, 1/10, .sine, 2/10⟩)] [(1/10, ⟨523, 2/25, .sine, 3/20⟩)]
      rfl rfl rfl).1

/-- Counterexample to C4 as stated: on a fresh enabled `BreakoutAudioEngine`
with a platform whose context creation fails, `playTone` does NOT catch the
failure — `this.init()` runs before the `try` block, so the exception
propagates to the caller instead of the call returning normally. -/
theorem C4_counterexample :
    BreakoutAudioEngine.playTone ⟨true, false, false⟩ 0 440 (1/10) .sine (3/10)
        BreakoutAudioEngine.State.initial
      = .error () :=
  BreakoutAudioEngine.bk_playTone_ctxFail ⟨true, false, false⟩ 0 440 (1/10) .sine (3/10)
    BreakoutAudioEngine.State.initial rfl rfl rfl

/-- C4 amended: `SoundManager.playTone` catches every platform failure —
the call always returns normally, with nothing scheduled on failure, and
when context creation was what failed the state is completely untouched.
`BreakoutAudioEngine.playTone` catches node-allocation failures (returning
normally with nothing scheduled) but lets a context-creation failure
propagate to the caller, because `this.init()` runs outside its `try`
block. -/
theorem C4_failures_amended (p : Platform) (now f d : ℚ) (w : Waveform) (v : ℚ)
    (s : SoundManager.State) (bs : BreakoutAudioEngine.State)
    (he : s.enabled = true) (hbe : bs.enabled = true)
    (hcf : p.contextFails = true) (hn : p.nodeAllocFails = true)
    (hbs : bs.context.isSome = true) :
    (SoundManager.playTone p now f d w v s).2 = []
    ∧ (s.audioContext = none → SoundManager.playTone p now f d w v s = (s, []))
    ∧ (∃ bs2, BreakoutAudioEngine.playTone p now f d w v bs = .ok (bs2, []))
    ∧ (∀ bs0 : BreakoutAudioEngine.State, bs0.enabled = true → bs0.context = none →
        BreakoutAudioEngine.playTone p now f d w v bs0 = .error ()) := by
  refine ⟨?_, ?_, ?_, ?_⟩
  · exact SoundManager.playTone_caught p now f d w v s he (Or.inr hn)
  · intro hac
    simp [SoundManager.playTone, SoundManager.playToneBody, SoundManager.getContext,
      hac, hcf, he]
  · exact BreakoutAudioEngine.bk_playTone_nodeFail p now f d w v bs hbe hbs hn
  · intro bs0 hbe0 hac0
    exact BreakoutAudioEngine.bk_playTone_ctxFail p now f d w v bs0 hbe0 hac0 hcf

/-- Witness for C4 on a failing platform: the `SoundManager` call swallows
the node-allocation failure and schedules nothing. -/
theorem C4_witness :
    (SoundManager.playTone ⟨true, true, false⟩ 0 440 (1/10) .sine (3/10)
        ⟨some 0, true, 1, [0]⟩).2 = [] :=
  (C4_failures_amended ⟨true, true, false⟩ 0 440 (1/10) .sine (3/10)
      ⟨some 0, true, 1, [0]⟩ ⟨some ⟨0, .running⟩, true, 7/10, 1, [0]⟩
      rfl rfl rfl rfl rfl).1

/-- At its start time an exponential gain ramp is exactly at its start
value (exponent `0`, factor `1`). -/
lemma GainEnvelope.value_t0 (g : GainEnvelope) :
    g.value (g.t0 : ℝ) = (g.v0 : ℝ) := by
  unfold GainEnvelope.value
  simp

/-- At its target time an exponential gain ramp with positive start value
is exactly at its target value. -/
lemma GainEnvelope.value_t1 (g : GainEnvelope) (hlt : g.t0 < g.t1)
    (h0 : 0 < g.v0) : g.value (g.t1 : ℝ) = (g.v1 : ℝ) := by
  unfold GainEnvelope.value
  have hne : ((g.t1 : ℝ) - (g.t0 : ℝ)) ≠ 0 := by
    have : (g.t0 : ℝ) < (g.t1 : ℝ) := by exact_mod_cast hlt
    linarith
  have h0R : (g.v0 : ℝ) ≠ 0 := by
    have : (0:ℝ) < (g.v0 : ℝ) := by exact_mod_cast h0
    linarith
  rw [div_self hne, Real.rpow_one]
  field_simp

/-- An exponential gain ramp whose target lies in `(0, v0]` is monotonically
non-increasing on the whole time axis. -/
lemma GainEnvelope.antitone_value (g : GainEnvelope) (hlt : g.t0 < g.t1)
    (h1 : 0 < g.v1) (hle : g.v1 ≤ g.v0) : Antitone g.value := by
  intro a b hab
  unfold GainEnvelope.value
  have h1R : (0:ℝ) < (g.v1 : ℝ) := by exact_mod_cast h1
  have h0R : (0:ℝ) < (g.v0 : ℝ) := by
    have : (0:ℚ) < g.v0 := lt_of_lt_of_le h1 hle
    exact_mod_cast this
  have hdpos : (0:ℝ) < (g.t1 : ℝ) - (g.t0 : ℝ) := by
    have : (g.t0 : ℝ) < (g.t1 : ℝ) := by exact_mod_cast hlt
    linarith
  have hcpos : 0 < (g.v1 : ℝ) / (g.v0 : ℝ) := div_pos h1R h0R
  have hc1 : (g.v1 : ℝ) / (g.v0 : ℝ) ≤ 1 := by
    rw [div_le_one h0R]
    exact_mod_cast hle
  have hexp : (a - (g.t0 : ℝ)) / ((g.t1 : ℝ) - (g.t0 : ℝ))
      ≤ (b - (g.t0 : ℝ)) / ((g.t1 : ℝ) - (g.t0 : ℝ)) := by
    apply (div_le_div_iff_of_pos_right hdpos).mpr
    linarith
  have hpow := Real.rpow_le_rpow_of_exponent_ge hcpos hc1 hexp
  exact mul_le_mul_of_nonneg_left hpow (le_of_lt h0R)

/-- Counterexample to C1 as stated: `volume = 1/200` is a valid input
(`volume ∈ [0,1]`, positive pitch and duration, enabled engine), yet the
scheduled envelope ramps UP from `1/200` at `t=0` to the fixed floor
`1/100` at `t=duration`, so the curve is not monotonically non-increasing. -/
theorem C1_counterexample :
    ((0:ℚ) ≤ 1/200 ∧ (1/200:ℚ) ≤ 1 ∧ (0:ℚ) < 440 ∧ (0:ℚ) < 1
      ∧ SoundManager.State.initial.enabled = true)
    ∧ scheduledEnvelope (SoundManager.playTone Platform.ok 0 440 1 .sine (1/200)
          SoundManager.State.initial).2
        = some ⟨1/200, 1/100, 0, 1⟩
    ∧ GainEnvelope.value ⟨1/200, 1/100, 0, 1⟩ 0 = 1/200
    ∧ GainEnvelope.value ⟨1/200, 1/100, 0, 1⟩ 1 = 1/100
    ∧ ¬ Antitone (GainEnvelope.value ⟨1/200, 1/100, 0, 1⟩) := by
  have e0 : GainEnvelope.value ⟨1/200, 1/100, 0, 1⟩ 0 = 1/200 := by
    unfold GainEnvelope.value
    norm_num
  have e1 : GainEnvelope.value ⟨1/200, 1/100, 0, 1⟩ 1 = 1/100 := by
    unfold GainEnvelope.value
    norm_num
  refine ⟨⟨by norm_num, by norm_num, by norm_num, by norm_num, rfl⟩, ?_, e0, e1, ?_⟩
  · rw [SoundManager.playTone_ok Platform.ok 0 440 1 .sine (1/200)
      SoundManager.State.initial rfl rfl rfl]
    simp [toneEvents, scheduledEnvelope]
  · intro h
    have := h (by norm_num : (0:ℝ) ≤ 1)
    rw [e0, e1] at this
    norm_num at this

/-- C1 amended: on an enabled engine with a working platform and
`volume ∈ [0.01, 1]` — at least the fixed `0.01` floor — the scheduled gain
envelope equals `volume` at `t = 0` (for the Breakout engine: the effective
start value `volume * masterVolume`, likewise required to be at least the
floor), decreases monotonically, and reaches the floor `0.01 > 0` (never
exactly zero) exactly at `t = duration`, via an exponential ramp. -/
theorem C1_envelope_amended (p : Platform) (now f d : ℚ) (w : Waveform) (v : ℚ)
    (s : SoundManager.State) (bs : BreakoutAudioEngine.State)
    (hf : 0 < f) (hd : 0 < d) (hv : 1/100 ≤ v) (hv1 : v ≤ 1)
    (hbv : 1/100 ≤ v * bs.masterVolume)
    (he : s.enabled = true) (hbe : bs.enabled = true)
    (hc : p.contextFails = false) (hn : p.nodeAllocFails = false) :
    scheduledEnvelope (SoundManager.playTone p now f d w v s).2
      = some ⟨v, 1/100, now, now + d⟩
    ∧ GainEnvelope.value ⟨v, 1/100, now, now + d⟩ (now : ℝ) = (v : ℝ)
    ∧ GainEnvelope.value ⟨v, 1/100, now, now + d⟩ ((now + d : ℚ) : ℝ)
        = ((1/100 : ℚ) : ℝ)
    ∧ (0:ℝ) < ((1/100 : ℚ) : ℝ)
    ∧ Antitone (GainEnvelope.value ⟨v, 1/100, now, now + d⟩)
    ∧ (∃ bs2, BreakoutAudioEngine.playTone p now f d w v bs
        = .ok (bs2, toneEvents now f d (v * bs.masterVolume))
      ∧ scheduledEnvelope (toneEvents now f d (v * bs.masterVolume))
          = some ⟨v * bs.masterVolume, 1/100, now, now + d⟩
      ∧ Antitone (GainEnvelope.value ⟨v * bs.masterVolume, 1/100, now, now + d⟩)) := by
  have hlt : (now : ℚ) < now + d := by linarith
  have hfloor : (0:ℚ) < 1/100 := by norm_num
  refine ⟨?_, ?_, ?_, ?_, ?_, ?_⟩
  · rw [SoundManager.playTone_ok p now f d w v s he hc hn]
    simp [toneEvents, scheduledEnvelope]
  · exact GainEnvelope.value_t0 ⟨v, 1/100, now, now + d⟩
  · exact GainEnvelope.value_t1 ⟨v, 1/100, now, now + d⟩ hlt (by linarith)
  · exact_mod_cast hfloor
  · exact GainEnvelope.antitone_value ⟨v, 1/100, now, now + d⟩ hlt hfloor hv
  · obtain ⟨bs2, hok, _, _⟩ :=
      BreakoutAudioEngine.bk_playTone_ok p now f d w v bs hbe hc hn
    refine ⟨bs2, hok, ?_, ?_⟩
    · simp [toneEvents, scheduledEnvelope]
    · exact GainEnvelope.antitone_value ⟨v * bs.masterVolume, 1/100, now, now + d⟩
        hlt hfloor hbv

/-- Witness for C1 at `playTone(440, 0.1, sine, 0.3)` on fresh engines
(Breakout master volume `0.7`, effective start `0.21 ≥ 0.01`). -/
theorem C1_witness :
    scheduledEnvelope (SoundManager.playTone Platform.ok 0 440 (1/10) .sine (3/10)
        SoundManager.State.initial).2
      = some ⟨3/10, 1/100, 0, 0 + 1/10⟩ :=
  (C1_envelope_amended Platform.ok 0 440 (1/10) .sine (3/10)
      SoundManager.State.initial BreakoutAudioEngine.State.initial
      (by norm_num) (by norm_num) (by norm_num) (by norm_num)
      (by norm_num [BreakoutAudioEngine.State.initial])
      rfl rfl rfl rfl).1
